import Mathlib

/-!
# Verification of the APS-ILS backend (src/backend/server.py, src/backend/seed_ils_data.py)

A shallow embedding of the FastAPI backend of the APS-ILS repository.

The backend stores documents in MongoDB collections (`work_examples`,
`saved_assessments`, `ils_reference`).  We model each collection as a Lean
`List` of document structures, in insertion order (`insert_one` appends,
`find` without a sort returns insertion order, `find` with a sort returns a
stable sort by the given key, `find_one`/`update_one`/`delete_one` act on the
first matching document).  MongoDB compares the stored string values of
`date_created` bytewise, which we model with a lexicographic comparison on
`List Char`.

Timestamps: the handlers call Python's `datetime.now(timezone.utc)`,
serialize with `datetime.isoformat()` on write and reparse with
`datetime.fromisoformat` on read.  We embed the relevant fragment of the
Python `datetime` library: an aware UTC datetime is a record of calendar
fields, `isoformat` renders `YYYY-MM-DDTHH:MM:SS[.ffffff]+00:00` (the
microsecond block is omitted exactly when the microsecond is 0), and
`fromisoformat` parses that canonical grammar back.

The `$regex` operator used by the `search` filter delegates to MongoDB's
PCRE engine; the embedding `regexFind` models that engine on the fragment of
patterns built from literal characters and the `.` wildcard (enough to
settle the claims about search, which quantify over metacharacter-free
strings or use a concrete pattern containing only `.`).
-/

/-! ## Bytewise (lexicographic) comparison of stored text, as MongoDB sorts it -/

/-- Lexicographic `≤` on lists of characters, compared by code point.  This is
how MongoDB orders the stored string values of `date_created`. -/
def charsLe : List Char → List Char → Bool
  | [], _ => true
  | _ :: _, [] => false
  | a :: as, b :: bs =>
    if a.toNat < b.toNat then true
    else if b.toNat < a.toNat then false
    else charsLe as bs

theorem charsLe_total : ∀ as bs, charsLe as bs = true ∨ charsLe bs as = true := by
  intro as
  induction as with
  | nil => intro bs; left; rfl
  | cons a as ih =>
    intro bs
    cases bs with
    | nil => right; rfl
    | cons b bs =>
      rcases Nat.lt_trichotomy a.toNat b.toNat with h | h | h
      · left; simp [charsLe, h]
      · have h1 : ¬ a.toNat < b.toNat := by omega
        have h2 : ¬ b.toNat < a.toNat := by omega
        rcases ih bs with ih1 | ih1
        · left; simp [charsLe, h1, h2, ih1]
        · right; simp [charsLe, h1, h2, ih1]
      · right; simp [charsLe, h]

theorem charsLe_trans :
    ∀ as bs cs, charsLe as bs = true → charsLe bs cs = true → charsLe as cs = true := by
  intro as
  induction as with
  | nil => intro bs cs _ _; rfl
  | cons a as ih =>
    intro bs cs h1 h2
    cases bs with
    | nil => simp [charsLe] at h1
    | cons b bs =>
      cases cs with
      | nil => simp [charsLe] at h2
      | cons c cs =>
        simp only [charsLe] at h1 h2 ⊢
        split_ifs at h1 h2 ⊢ with hab hba hbc hcb hac hca <;>
          first
            | rfl
            | omega
            | (exact ih bs cs h1 h2)
            | (simp_all; omega)

/-- Lexicographic `≤` on `String`, via the underlying character list. -/
def strLe (a b : String) : Prop := charsLe a.data b.data = true

instance : DecidableRel strLe := fun a b => inferInstanceAs (Decidable (_ = true))

instance : IsTotal String strLe := ⟨fun a b => charsLe_total a.data b.data⟩

instance : IsTrans String strLe := ⟨fun a b c => charsLe_trans a.data b.data c.data⟩

/-! ## The fragment of Python `datetime` used by the backend

`datetime.now(timezone.utc)` produces an aware UTC datetime; `isoformat`
serializes it; `datetime.fromisoformat` parses the serialized text back. -/

/-- An aware UTC Python `datetime`, as produced by `datetime.now(timezone.utc)`.
The timezone is always `timezone.utc`, so it is not a field. -/
structure PyDateTime where
  year : Nat
  month : Nat
  day : Nat
  hour : Nat
  minute : Nat
  second : Nat
  microsecond : Nat
deriving DecidableEq

/-- Field ranges of a real Python `datetime` value. -/
def PyDateTime.Valid (t : PyDateTime) : Prop :=
  0 < t.year ∧ t.year ≤ 9999 ∧ 0 < t.month ∧ t.month ≤ 12 ∧ 0 < t.day ∧ t.day ≤ 31 ∧
    t.hour ≤ 23 ∧ t.minute ≤ 59 ∧ t.second ≤ 59 ∧ t.microsecond ≤ 999999

instance (t : PyDateTime) : Decidable t.Valid := by unfold PyDateTime.Valid; infer_instance

/-- The decimal digit character for `n % 10`-style values. -/
def digitChar (n : Nat) : Char := Char.ofNat (48 + n)

/-- The numeric value of a decimal digit character. -/
def digitVal (c : Char) : Nat := c.toNat - 48

/-- Is `c` one of `0`..`9`? -/
def isDigitChar (c : Char) : Bool := 48 ≤ c.toNat && c.toNat ≤ 57

/-- Zero-padded fixed-width decimal rendering (`%0kd` for values below `10^k`). -/
def padNum : Nat → Nat → List Char
  | 0, _ => []
  | k + 1, n => padNum k (n / 10) ++ [digitChar (n % 10)]

/-- Read a decimal digit string as a number. -/
def parseNum (cs : List Char) : Nat := cs.foldl (fun a c => a * 10 + digitVal c) 0

theorem length_padNum : ∀ k n, (padNum k n).length = k := by
  intro k
  induction k with
  | zero => intro n; rfl
  | succ k ih => intro n; simp [padNum, ih]

theorem parseNum_append_digit (cs : List Char) (c : Char) :
    parseNum (cs ++ [c]) = parseNum cs * 10 + digitVal c := by
  simp [parseNum, List.foldl_append]

theorem digitVal_digitChar : ∀ d, d < 10 → digitVal (digitChar d) = d := by decide

theorem isDigitChar_digitChar : ∀ d, d < 10 → isDigitChar (digitChar d) = true := by decide

theorem parseNum_padNum : ∀ k n, n < 10 ^ k → parseNum (padNum k n) = n := by
  intro k
  induction k with
  | zero =>
    intro n hn
    interval_cases n
    rfl
  | succ k ih =>
    intro n hn
    have hdiv : n / 10 < 10 ^ k := by
      have : n < 10 ^ k * 10 := by rw [← pow_succ]; exact hn
      omega
    rw [padNum, parseNum_append_digit, ih _ hdiv, digitVal_digitChar _ (Nat.mod_lt n (by omega))]
    omega

theorem all_isDigitChar_padNum : ∀ k n, (padNum k n).all isDigitChar = true := by
  intro k
  induction k with
  | zero => intro n; rfl
  | succ k ih =>
    intro n
    simp only [padNum, List.all_append, ih, Bool.true_and, List.all_cons, List.all_nil,
      Bool.and_true]
    exact isDigitChar_digitChar _ (Nat.mod_lt n (by omega))

/-- `datetime.isoformat()` of an aware UTC datetime, as a character list:
`YYYY-MM-DDTHH:MM:SS[.ffffff]+00:00`, the microsecond block present exactly
when the microsecond is nonzero. -/
def isoformatChars (t : PyDateTime) : List Char :=
  padNum 4 t.year ++ ['-'] ++ padNum 2 t.month ++ ['-'] ++ padNum 2 t.day ++
    ['T'] ++ padNum 2 t.hour ++ [':'] ++ padNum 2 t.minute ++ [':'] ++ padNum 2 t.second ++
    (if t.microsecond = 0 then [] else ['.'] ++ padNum 6 t.microsecond) ++
    ['+', '0', '0', ':', '0', '0']

/-- `datetime.isoformat()` as a `String` (what `insert_one` stores). -/
def PyDateTime.isoformat (t : PyDateTime) : String := String.mk (isoformatChars t)

/-- Read exactly `k` decimal digits, returning the value and the rest. -/
def readNum (k : Nat) (cs : List Char) : Option (Nat × List Char) :=
  let ds := cs.take k
  if ds.length = k ∧ ds.all isDigitChar = true then some (parseNum ds, cs.drop k) else none

/-- Consume one expected character. -/
def expectChar (c : Char) : List Char → Option (List Char)
  | [] => none
  | x :: xs => if x = c then some xs else none

/-- `datetime.fromisoformat` on the canonical grammar emitted by
`PyDateTime.isoformat` (the only shape the backend ever stores). -/
def fromisoformatChars (cs : List Char) : Option PyDateTime := do
  let (y, cs) ← readNum 4 cs
  let cs ← expectChar '-' cs
  let (mo, cs) ← readNum 2 cs
  let cs ← expectChar '-' cs
  let (d, cs) ← readNum 2 cs
  let cs ← expectChar 'T' cs
  let (h, cs) ← readNum 2 cs
  let cs ← expectChar ':' cs
  let (mi, cs) ← readNum 2 cs
  let cs ← expectChar ':' cs
  let (sec, cs) ← readNum 2 cs
  let (us, cs) ←
    match cs with
    | c :: rest => if c = '.' then readNum 6 rest else some (0, c :: rest)
    | [] => some (0, ([] : List Char))
  let cs ← expectChar '+' cs
  let cs ← expectChar '0' cs
  let cs ← expectChar '0' cs
  let cs ← expectChar ':' cs
  let cs ← expectChar '0' cs
  let cs ← expectChar '0' cs
  match cs with
  | [] => some ⟨y, mo, d, h, mi, sec, us⟩
  | _ => none

/-- `datetime.fromisoformat` on a stored string. -/
def fromisoformat (s : String) : Option PyDateTime := fromisoformatChars s.data

theorem readNum_padNum_append (k n : Nat) (rest : List Char) (h : n < 10 ^ k) :
    readNum k (padNum k n ++ rest) = some (n, rest) := by
  have hlen : (padNum k n).length = k := length_padNum k n
  simp only [readNum, List.take_left' hlen, List.drop_left' hlen, hlen,
    all_isDigitChar_padNum, and_self, if_pos, parseNum_padNum k n h, true_and, if_true]

theorem expectChar_cons (c : Char) (rest : List Char) :
    expectChar c (c :: rest) = some rest := by
  simp [expectChar]

set_option maxHeartbeats 1000000 in
/-- Serializing an aware UTC datetime with `isoformat` and reparsing the text
with `fromisoformat` restores the original datetime exactly. -/
theorem fromisoformat_isoformat (t : PyDateTime) (ht : t.Valid) :
    fromisoformat t.isoformat = some t := by
  obtain ⟨hy1, hy2, hm1, hm2, hd1, hd2, hh, hmi, hs, hus⟩ := ht
  have hy : t.year < 10 ^ 4 := by norm_num; omega
  have hmo : t.month < 10 ^ 2 := by norm_num; omega
  have hd : t.day < 10 ^ 2 := by norm_num; omega
  have hho : t.hour < 10 ^ 2 := by norm_num; omega
  have hmin : t.minute < 10 ^ 2 := by norm_num; omega
  have hsec : t.second < 10 ^ 2 := by norm_num; omega
  have husec : t.microsecond < 10 ^ 6 := by norm_num; omega
  by_cases hms : t.microsecond = 0
  · simp only [fromisoformat, PyDateTime.isoformat, isoformatChars, hms, if_pos,
      List.append_assoc, List.singleton_append, List.nil_append, List.cons_append]
    unfold fromisoformatChars
    rw [readNum_padNum_append 4 t.year _ hy]
    dsimp only [Option.bind_eq_bind, Option.some_bind]
    rw [expectChar_cons]
    dsimp only [Option.bind_eq_bind, Option.some_bind]
    rw [readNum_padNum_append 2 t.month _ hmo]
    dsimp only [Option.bind_eq_bind, Option.some_bind]
    rw [expectChar_cons]
    dsimp only [Option.bind_eq_bind, Option.some_bind]
    rw [readNum_padNum_append 2 t.day _ hd]
    dsimp only [Option.bind_eq_bind, Option.some_bind]
    rw [expectChar_cons]
    dsimp only [Option.bind_eq_bind, Option.some_bind]
    rw [readNum_padNum_append 2 t.hour _ hho]
    dsimp only [Option.bind_eq_bind, Option.some_bind]
    rw [expectChar_cons]
    dsimp only [Option.bind_eq_bind, Option.some_bind]
    rw [readNum_padNum_append 2 t.minute _ hmin]
    dsimp only [Option.bind_eq_bind, Option.some_bind]
    rw [expectChar_cons]
    dsimp only [Option.bind_eq_bind, Option.some_bind]
    rw [readNum_padNum_append 2 t.second _ hsec]
    dsimp only [Option.bind_eq_bind, Option.some_bind]
    rw [← hms]
    rfl
  · simp only [fromisoformat, PyDateTime.isoformat, isoformatChars, if_neg hms,
      List.append_assoc, List.singleton_append, List.nil_append, List.cons_append]
    unfold fromisoformatChars
    rw [readNum_padNum_append 4 t.year _ hy]
    dsimp only [Option.bind_eq_bind, Option.some_bind]
    rw [expectChar_cons]
    dsimp only [Option.bind_eq_bind, Option.some_bind]
    rw [readNum_padNum_append 2 t.month _ hmo]
    dsimp only [Option.bind_eq_bind, Option.some_bind]
    rw [expectChar_cons]
    dsimp only [Option.bind_eq_bind, Option.some_bind]
    rw [readNum_padNum_append 2 t.day _ hd]
    dsimp only [Option.bind_eq_bind, Option.some_bind]
    rw [expectChar_cons]
    dsimp only [Option.bind_eq_bind, Option.some_bind]
    rw [readNum_padNum_append 2 t.hour _ hho]
    dsimp only [Option.bind_eq_bind, Option.some_bind]
    rw [expectChar_cons]
    dsimp only [Option.bind_eq_bind, Option.some_bind]
    rw [readNum_padNum_append 2 t.minute _ hmin]
    dsimp only [Option.bind_eq_bind, Option.some_bind]
    rw [expectChar_cons]
    dsimp only [Option.bind_eq_bind, Option.some_bind]
    rw [readNum_padNum_append 2 t.second _ hsec]
    dsimp only [Option.bind_eq_bind, Option.some_bind]
    simp only [reduceIte]
    rw [readNum_padNum_append 6 t.microsecond _ husec]
    dsimp only [Option.bind_eq_bind, Option.some_bind]
    rfl

/-! ## The fragment of MongoDB `$regex` matching used by the `search` filter

`get_work_examples` passes the raw `search` string as a `$regex` pattern with
the `i` (case-insensitive) option.  MongoDB interprets the pattern with a
PCRE engine; we embed that engine on the fragment of patterns built from
literal characters and the `.` wildcard, which is all the claims about
search need.  Case-insensitivity is modelled by lowercasing both pattern and
text (ASCII), as the `i` option does for ASCII input. -/

/-- ASCII lowercasing of one character (code points 65..90 shift by 32). -/
def lowerChar (c : Char) : Char :=
  if 65 ≤ c.toNat ∧ c.toNat ≤ 90 then Char.ofNat (c.toNat + 32) else c

/-- ASCII lowercasing of a character list. -/
def lowerChars (cs : List Char) : List Char := cs.map lowerChar

/-- PCRE matching of the pattern against a prefix of the text: a literal
character matches itself, `.` matches any character. -/
def matchHere : List Char → List Char → Bool
  | [], _ => true
  | _ :: _, [] => false
  | p :: ps, t :: ts => (p = '.' || p = t) && matchHere ps ts

/-- Unanchored PCRE search: does the pattern match starting at some position
of the text?  This is what `{"$regex": pattern}` asks of a stored field. -/
def regexFind (p : List Char) : List Char → Bool
  | [] => matchHere p []
  | c :: t => matchHere p (c :: t) || regexFind p t

/-- Case-insensitive regex search on strings, modelling
`{"$regex": pat, "$options": "i"}` applied to a stored text field. -/
def regexFindCI (pat text : String) : Bool :=
  regexFind (lowerChars pat.data) (lowerChars text.data)

/-- The PCRE metacharacters (outside character classes).  A pattern free of
all of them is matched purely literally by the engine. -/
def pcreMetachars : List Char :=
  ['\\', '^', '$', '.', '|', '?', '*', '+', '(', ')', '[', ']', '\x7b', '\x7d']

/-- A search string that contains no regex metacharacter. -/
def NoMetachar (s : String) : Prop := ∀ c ∈ s.data, c ∉ pcreMetachars

instance (s : String) : Decidable (NoMetachar s) := by
  unfold NoMetachar; infer_instance

theorem matchHere_eq_isPrefixOf (p : List Char) (hp : ∀ c ∈ p, c ≠ '.') :
    ∀ t, matchHere p t = true ↔ p <+: t := by
  induction p with
  | nil => intro t; simp [matchHere]
  | cons a ps ih =>
    intro t
    have ha : a ≠ '.' := hp a (by simp)
    cases t with
    | nil =>
      simp only [matchHere, List.prefix_cons_iff]
      constructor
      · intro h; cases h
      · rintro (h | ⟨r, h, -⟩) <;> simp_all
    | cons b ts =>
      simp only [matchHere, Bool.and_eq_true, Bool.or_eq_true, decide_eq_true_eq]
      rw [ih (fun c hc => hp c (by simp [hc]))]
      constructor
      · rintro ⟨ha' | ha', h⟩
        · exact absurd ha' ha
        · subst ha'; exact List.cons_prefix_cons.mpr ⟨rfl, h⟩
      · intro h
        obtain ⟨hab, h2⟩ := List.cons_prefix_cons.mp h
        subst hab
        exact ⟨Or.inr rfl, h2⟩

theorem regexFind_eq_isInfixOf (p : List Char) (hp : ∀ c ∈ p, c ≠ '.') :
    ∀ t, regexFind p t = true ↔ p <:+: t := by
  intro t
  induction t with
  | nil =>
    rw [regexFind, matchHere_eq_isPrefixOf p hp]
    simp
  | cons c ts ih =>
    rw [regexFind, Bool.or_eq_true, matchHere_eq_isPrefixOf p hp, ih,
      List.infix_cons_iff]

/-! ## Data model

Stored documents of the `work_examples` collection.  Documents created by
this backend always carry every field, but MongoDB documents in general may
lack fields: `get_filter_options` reads them with `.get(key, default)`.  A
missing `aps_level` is modelled as `none` (its `.get` default is `''`); the
list fields' `.get` default is `[]`, which filters and scans cannot tell
apart from a missing field, so they are plain lists.  `date_created` is the
stored text (the backend writes `isoformat` output). -/

structure StoredWorkExample where
  id : String
  title : String
  example_text : String
  role : String
  aps_level : Option String
  capabilities : List String
  behaviours : List String
  tags : List String
  date_created : String
deriving DecidableEq

/-- The request body of create/update (`WorkExampleCreate` in server.py). -/
structure WorkExampleCreate where
  title : String
  example_text : String
  role : String
  aps_level : String
  capabilities : List String
  behaviours : List String
  tags : List String
deriving DecidableEq

/-- A work example as returned on a read path: `date_created` has been parsed
back from its stored text with `datetime.fromisoformat`. -/
structure WorkExampleResp where
  id : String
  title : String
  example_text : String
  role : String
  aps_level : Option String
  capabilities : List String
  behaviours : List String
  tags : List String
  date_created : Option PyDateTime
deriving DecidableEq

/-- The read-path reshaping of a stored document (the
`datetime.fromisoformat` step of every GET handler). -/
def toResp (d : StoredWorkExample) : WorkExampleResp :=
  { id := d.id, title := d.title, example_text := d.example_text, role := d.role,
    aps_level := d.aps_level, capabilities := d.capabilities, behaviours := d.behaviours,
    tags := d.tags, date_created := fromisoformat d.date_created }

/-- Python truthiness of an `Optional[str]`: `None` and `''` are falsy.
Each `if <param>:` guard in `get_work_examples` uses this. -/
def truthy : Option String → Bool
  | none => false
  | some s => !(s == "")

/-- The HTTP status used for a missing document. -/
def notFoundStatus : Nat := 404

/-- The HTTP status produced by every other failure path
(`HTTPException(status_code=500, ...)`). -/
def internalErrorStatus : Nat := 500

/-- The optional query parameters of `GET /api/work-examples`. -/
structure WorkExampleQuery where
  aps_level : Option String := none
  capability : Option String := none
  behaviour : Option String := none
  tag : Option String := none
  search : Option String := none

/-- The MongoDB query built by `get_work_examples`, applied to one stored
document.  A clause is added only when its parameter is truthy; the scalar
`aps_level` clause is an equality test, the `capabilities`/`behaviours`/
`tags` clauses are array-membership tests, and the `search` clause is the
`$or` of two case-insensitive `$regex` tests on `title` and `example_text`. -/
def matchesWorkExampleQuery (q : WorkExampleQuery) (d : StoredWorkExample) : Bool :=
  (if truthy q.aps_level then d.aps_level == q.aps_level else true) &&
  (if truthy q.capability then d.capabilities.contains (q.capability.getD "") else true) &&
  (if truthy q.behaviour then d.behaviours.contains (q.behaviour.getD "") else true) &&
  (if truthy q.tag then d.tags.contains (q.tag.getD "") else true) &&
  (if truthy q.search then
      regexFindCI (q.search.getD "") d.title || regexFindCI (q.search.getD "") d.example_text
    else true)

/-- The descending `date_created` order requested by
`.sort("date_created", -1)`: MongoDB compares the stored strings bytewise. -/
def dateDesc (d e : StoredWorkExample) : Prop :=
  charsLe e.date_created.data d.date_created.data = true

instance : DecidableRel dateDesc := fun d e => inferInstanceAs (Decidable (_ = true))

instance : IsTotal StoredWorkExample dateDesc :=
  ⟨fun d e => charsLe_total e.date_created.data d.date_created.data⟩

instance : IsTrans StoredWorkExample dateDesc :=
  ⟨fun d e f h1 h2 => charsLe_trans f.date_created.data e.date_created.data d.date_created.data
    h2 h1⟩

/-- `GET /api/work-examples`: filter by the built query, sort by
`date_created` descending (a stable sort, as MongoDB's), return at most the
first 1000 documents (`.to_list(1000)`). -/
def get_work_examples (q : WorkExampleQuery) (store : List StoredWorkExample) :
    List StoredWorkExample :=
  (((store.filter (matchesWorkExampleQuery q)).insertionSort dateDesc).take 1000)

/-- `find_one({"id": example_id})`: the first stored document with that id. -/
def find_one (i : String) (store : List StoredWorkExample) : Option StoredWorkExample :=
  store.find? (fun d => d.id == i)

/-- `GET /api/work-examples/{id}`: 404 when absent, else the parsed doc. -/
def get_work_example (i : String) (store : List StoredWorkExample) :
    Except Nat WorkExampleResp :=
  match find_one i store with
  | none => .error notFoundStatus
  | some d => .ok (toResp d)

/-- The `$set` patch of `update_work_example`: `example.model_dump()` holds
exactly the seven `WorkExampleCreate` fields, so `id` and `date_created` are
not in the patch. -/
def set_fields (p : WorkExampleCreate) (d : StoredWorkExample) : StoredWorkExample :=
  { d with
      title := p.title, example_text := p.example_text, role := p.role,
      aps_level := some p.aps_level, capabilities := p.capabilities,
      behaviours := p.behaviours, tags := p.tags }

/-- `update_one({"id": i}, {"$set": patch})`: patch the first matching doc. -/
def update_first (i : String) (p : WorkExampleCreate) :
    List StoredWorkExample → List StoredWorkExample
  | [] => []
  | d :: ds => if d.id = i then set_fields p d :: ds else d :: update_first i p ds

/-- `PUT /api/work-examples/{id}`: look the document up, 404 when absent,
else `$set` the seven payload fields on it and return the re-fetched,
re-parsed document.  Returns the (possibly updated) store and the response.
The inner 500 arm is unreachable (the document just updated is still
present); it models the generic exception handler. -/
def update_work_example (i : String) (p : WorkExampleCreate)
    (store : List StoredWorkExample) :
    List StoredWorkExample × Except Nat WorkExampleResp :=
  match find_one i store with
  | none => (store, .error notFoundStatus)
  | some _ =>
    let store2 := update_first i p store
    match find_one i store2 with
    | none => (store2, .error internalErrorStatus)
    | some d => (store2, .ok (toResp d))

/-- `DELETE /api/work-examples/{id}`: `delete_one` removes the first
matching document; a zero deleted count is a 404. -/
def delete_work_example (i : String) (store : List StoredWorkExample) :
    List StoredWorkExample × Except Nat String :=
  if store.any (fun d => d.id == i) then
    (store.eraseP (fun d => d.id == i), .ok "Work example deleted successfully")
  else
    (store, .error notFoundStatus)

/-- `POST /api/work-examples`: build the document from the payload, a fresh
uuid4 and `datetime.now(timezone.utc)` (both supplied here as arguments,
since they are effects), serialize `date_created` with `isoformat`, and
`insert_one` it.  Returns the new store and the created document. -/
def mkWorkExampleDoc (p : WorkExampleCreate) (freshId : String) (now : PyDateTime) :
    StoredWorkExample :=
  { id := freshId, title := p.title, example_text := p.example_text, role := p.role,
    aps_level := some p.aps_level, capabilities := p.capabilities,
    behaviours := p.behaviours, tags := p.tags, date_created := now.isoformat }

def create_work_example (p : WorkExampleCreate) (freshId : String) (now : PyDateTime)
    (store : List StoredWorkExample) : List StoredWorkExample × StoredWorkExample :=
  (store ++ [mkWorkExampleDoc p freshId now], mkWorkExampleDoc p freshId now)

/-! ## `GET /api/filters` -/

/-- The response of `get_filter_options`. -/
structure FilterOptions where
  capabilities : List String
  behaviours : List String
  tags : List String
  aps_levels : List String
deriving DecidableEq

/-- `sorted(list(set(xs)))`: the lexicographically sorted list of the
distinct elements of `xs` (Python compares strings lexicographically). -/
def sortedDedup (l : List String) : List String := (l.insertionSort strLe).dedup

/-- `GET /api/filters`: scan the first 1000 stored work examples
(`.to_list(1000)`), union each list field and the scalar `aps_level`
(`example.get('aps_level', '')`, so a document without the field
contributes `''`), and return each union sorted and de-duplicated. -/
def get_filter_options (store : List StoredWorkExample) : FilterOptions :=
  let examples := store.take 1000
  { capabilities := sortedDedup (examples.flatMap (·.capabilities))
    behaviours := sortedDedup (examples.flatMap (·.behaviours))
    tags := sortedDedup (examples.flatMap (·.tags))
    aps_levels := sortedDedup (examples.map (fun d => d.aps_level.getD "")) }

/-! ## Saved assessments -/

/-- A stored document of the `saved_assessments` collection. -/
structure SavedAssessmentDoc where
  id : String
  example_id : Option String
  example_text : String
  assessment_text : String
  date_created : String
deriving DecidableEq

/-- A saved assessment as returned by a read path (`date_created` parsed). -/
structure SavedAssessmentResp where
  id : String
  example_id : Option String
  example_text : String
  assessment_text : String
  date_created : Option PyDateTime
deriving DecidableEq

def toSavedResp (d : SavedAssessmentDoc) : SavedAssessmentResp :=
  { id := d.id, example_id := d.example_id, example_text := d.example_text,
    assessment_text := d.assessment_text, date_created := fromisoformat d.date_created }

/-- Descending `date_created` order on saved assessments. -/
def savedDateDesc (d e : SavedAssessmentDoc) : Prop :=
  charsLe e.date_created.data d.date_created.data = true

instance : DecidableRel savedDateDesc := fun d e => inferInstanceAs (Decidable (_ = true))

instance : IsTotal SavedAssessmentDoc savedDateDesc :=
  ⟨fun d e => charsLe_total e.date_created.data d.date_created.data⟩

instance : IsTrans SavedAssessmentDoc savedDateDesc :=
  ⟨fun d e f h1 h2 =>
    charsLe_trans f.date_created.data e.date_created.data d.date_created.data h2 h1⟩

/-- `POST /api/assessments/save`: persist the payload as-is; the payload
arrives with `id` and `date_created` already filled by the pydantic model
defaults (fresh uuid4 and `now(timezone.utc).isoformat()` respectively). -/
def save_assessment (d : SavedAssessmentDoc) (store : List SavedAssessmentDoc) :
    List SavedAssessmentDoc × String :=
  (store ++ [d], d.id)

/-- `GET /api/assessments`: all saved assessments, `date_created`
descending, at most 1000 (`.to_list(1000)`), dates reparsed. -/
def get_saved_assessments (store : List SavedAssessmentDoc) : List SavedAssessmentResp :=
  (((store.insertionSort savedDateDesc).take 1000)).map toSavedResp

/-! ## The `ils_reference` collection and `GET /api/ils-reference` -/

/-- A stored ILS reference item (`ILSReference` in server.py). -/
structure ILSDoc where
  id : String
  capability_name : String
  aps_level : String
  behaviour : String
  description : String
deriving DecidableEq

/-- `GET /api/ils-reference`: equality filters on `aps_level` and
`capability_name`, each added only when its parameter is truthy; no sort;
at most 1000 results (`.to_list(1000)`). -/
def get_ils_reference (aps_level capability : Option String) (store : List ILSDoc) :
    List ILSDoc :=
  ((store.filter (fun d =>
      (if truthy aps_level then d.aps_level == aps_level.getD "" else true) &&
      (if truthy capability then d.capability_name == capability.getD "" else true))).take
    1000)

/-! ## `POST /api/assess` -/

/-- The request body (`AssessmentRequest`): `aps_level: Optional[str] = "APS6"`. -/
structure AssessmentRequest where
  example_text : String
  aps_level : Option String
deriving DecidableEq

/-- Field extraction for `AssessmentRequest`: the outer `Option` is whether
the JSON body carries the `aps_level` key at all (pydantic applies the
default `"APS6"` only then); the inner `Option` is an explicit JSON null. -/
def parseAssessmentRequest (example_text : String) (aps_level_field : Option (Option String)) :
    AssessmentRequest :=
  { example_text := example_text, aps_level := aps_level_field.getD (some "APS6") }

/-- The response body (`AssessmentResponse`). -/
structure AssessmentResponse where
  assessment : String
  example_text : String
deriving DecidableEq

/-- The query `{"aps_level": request.aps_level}` of `assess_example`: an
explicit `None` matches no seeded item (they all carry a string level). -/
def ilsQueryMatches (lvl : Option String) (d : ILSDoc) : Bool :=
  match lvl with
  | some v => d.aps_level == v
  | none => false

/-- The reference items fetched for the prompt context:
`find({"aps_level": request.aps_level}).to_list(100)`. -/
def assessIlsItems (lvl : Option String) (store : List ILSDoc) : List ILSDoc :=
  (store.filter (ilsQueryMatches lvl)).take 100

/-- One line of the context block:
`f"**{capability_name}** ({aps_level}): {behaviour} - {description}"`. -/
def renderRefLine (d : ILSDoc) : String :=
  "**" ++ d.capability_name ++ "** (" ++ d.aps_level ++ "): " ++ d.behaviour ++ " - " ++
    d.description

/-- The context-block lines, one per fetched item, in store-returned order. -/
def contextLinesFor (lvl : Option String) (store : List ILSDoc) : List String :=
  (assessIlsItems lvl store).map renderRefLine

/-- How a Python f-string renders an `Optional[str]`. -/
def pyStr : Option String → String
  | some s => s
  | none => "None"

/-- The `ils_context` string: a header, then each line followed by `\n`. -/
def ilsContext (lvl : Option String) (store : List ILSDoc) : String :=
  "\n\n### APS ILS Framework Reference:\n" ++
    String.join ((contextLinesFor lvl store).map (fun l => l ++ "\n"))

/-- The full `assessment_prompt` f-string. -/
def assessmentPrompt (req : AssessmentRequest) (store : List ILSDoc) : String :=
  "Please assess this work example against the APS ILS framework for " ++
    pyStr req.aps_level ++ " level.\n\n" ++ ilsContext req.aps_level store ++
    "\n\n### Work Example to Assess:\n" ++ req.example_text ++
    "\n\nProvide a comprehensive assessment following the structured format outlined in your system instructions."

/-- The externally visible effects of one `assess` call, in order. -/
inductive AssessEffect where
  | storeRead (collection : String) (docsReturned : Nat)
  | llmCall (prompt : String)
deriving DecidableEq

/-- `POST /api/assess`.  `api_key = os.environ.get('OPENAI_API_KEY')`; a
missing or empty credential raises before the reference fetch and before
the LLM call (the raised `HTTPException(500, ...)` is re-wrapped by the
generic handler into another 500).  Otherwise the reference items are
fetched, the prompt is fully rendered, and only then is the LLM called; the
`llm` argument stands for the external provider.  The effect list records
the store read and the LLM call, in order, with the prompt that was sent. -/
def assess_example (api_key : Option String) (req : AssessmentRequest)
    (ils_store : List ILSDoc) (llm : String → String) :
    List AssessEffect × Except Nat AssessmentResponse :=
  if truthy api_key then
    let items := assessIlsItems req.aps_level ils_store
    let prompt := assessmentPrompt req ils_store
    ([.storeRead "ils_reference" items.length, .llmCall prompt],
      .ok { assessment := llm prompt, example_text := req.example_text })
  else
    ([], .error internalErrorStatus)

/-! ## The seeded ILS reference catalog (src/backend/seed_ils_data.py)

Each seeded document's `id` is `str(uuid.uuid4())`, a fresh random string;
the generator is abstracted as the argument `g` (item number to id). -/

/-- The 20-item `ILS_DATA` literal of seed_ils_data.py. -/
def ILS_DATA (g : Nat → String) : List ILSDoc :=
  [{ id := g 0, capability_name := "Supports Strategic Direction", aps_level := "APS6", behaviour := "Supports shared purpose and direction", description := "Understands, supports and promotes the organisation\x27s vision, mission, and business objectives. Identifies the relationship between organisational goals and operational tasks. Clearly communicates goals and objectives to others. Understands, supports and communicates the reasons for decisions and recommendations." },
  { id := g 1, capability_name := "Supports Strategic Direction", aps_level := "APS6", behaviour := "Thinks strategically", description := "Understands the work environment and initiates and develops team goals, strategies and work plans. Identifies broader factors, trends and influences that may impact on the team\x27s work objectives. Considers the ramifications of issues and longer-term impact of own work and work area." },
  { id := g 2, capability_name := "Supports Strategic Direction", aps_level := "APS6", behaviour := "Harnesses information and opportunities", description := "Gathers and investigates information from diverse sources and explores new ideas and different viewpoints. Uses experience to analyse what information is important and how it should be used. Maintains an awareness of the organisation and keeps self and others well informed on work issues and finds out about best practice approaches." },
  { id := g 3, capability_name := "Supports Strategic Direction", aps_level := "APS6", behaviour := "Shows judgement, intelligence and commonsense", description := "Undertakes objective, systematic analysis and draws accurate conclusions based on evidence. Recognises the links between interconnected issues. Identifies problems and works to resolve them. Thinks laterally, identifies, implements and promotes improved work practices." },
  { id := g 4, capability_name := "Achieves Results", aps_level := "APS6", behaviour := "Identifies and uses resources wisely", description := "Reviews project performance and identifies opportunities for improvement. Makes effective use of individual and team capabilities and negotiates responsibility for work outcomes. Is responsive to changes in requirements." },
  { id := g 5, capability_name := "Achieves Results", aps_level := "APS6", behaviour := "Applies and builds professional expertise", description := "Values specialist expertise and capitalises on the knowledge and skills of others within the organisation. Contributes own expertise to achieve outcomes for the business unit." },
  { id := g 6, capability_name := "Achieves Results", aps_level := "APS6", behaviour := "Responds positively to change", description := "Establishes clear plans and timeframes for project implementation. Responds in a positive and flexible manner to change and uncertainty. Shares information with others and assists them to adapt." },
  { id := g 7, capability_name := "Achieves Results", aps_level := "APS6", behaviour := "Takes responsibility for managing work projects to achieve results", description := "Sees projects through to completion. Monitors project progress and adjusts plans as required. Commits to achieving quality outcomes and adheres to documentation procedures. Seeks feedback from supervisor to gauge satisfaction." },
  { id := g 8, capability_name := "Supports Productive Working Relationships", aps_level := "APS6", behaviour := "Nurtures internal and external relationships", description := "Builds and sustains positive relationships with team members, stakeholders and clients. Proactively offers assistance for a mutually beneficial relationship. Anticipates and is responsive to client and stakeholder needs and expectations." },
  { id := g 9, capability_name := "Supports Productive Working Relationships", aps_level := "APS6", behaviour := "Listens to, understands and recognises the needs of others", description := "Actively listens to staff, colleagues, clients and stakeholders. Involves others and recognises their contributions. Consults and shares information and ensures others are kept informed of issues. Works collaboratively and operates as an effective team member." },
  { id := g 10, capability_name := "Supports Productive Working Relationships", aps_level := "APS6", behaviour := "Values individual differences and diversity", description := "Recognises the positive benefits that can be gained from diversity. Encourages the exploration of diverse views and harnesses the benefits of such views. Recognises the different working styles of individuals, and factors this into the management of people and tasks. Tries to see things from different perspectives. Treats people with respect and courtesy." },
  { id := g 11, capability_name := "Supports Productive Working Relationships", aps_level := "APS6", behaviour := "Shares learning and supports others", description := "Identifies learning opportunities for others and delegates tasks effectively. Agrees clear performance standards and gives timely praise and recognition. Makes time for people and offers full support when required. Provides constructive and regular feedback. Deals with under-performance promptly." },
  { id := g 12, capability_name := "Displays Personal Drive and Integrity", aps_level := "APS6", behaviour := "Demonstrates public service professionalism and probity", description := "Adopts a principled approach and adheres to the APS Values and Code of Conduct. Acts professionally at all times and operates within the boundaries of organisational processes and legal and public policy constraints. Operates as an effective representative of the organisation in internal forums." },
  { id := g 13, capability_name := "Displays Personal Drive and Integrity", aps_level := "APS6", behaviour := "Engages with risk and shows personal courage", description := "Provides impartial and forthright advice. Challenges issues constructively and justifies own position when challenged. Acknowledges mistakes and learns from them, and seeks guidance and advice when required." },
  { id := g 14, capability_name := "Displays Personal Drive and Integrity", aps_level := "APS6", behaviour := "Commits to action", description := "Takes personal responsibility for meeting objectives and progressing work. Shows initiative and does what is required. Commits energy and drive to see that goals are achieved." },
  { id := g 15, capability_name := "Displays Personal Drive and Integrity", aps_level := "APS6", behaviour := "Promotes and adopts a positive and balanced approach to work", description := "Persists with, and focuses on achieving, objectives even in difficult circumstances. Remains positive and responds to pressure in a calm manner." },
  { id := g 16, capability_name := "Displays Personal Drive and Integrity", aps_level := "APS6", behaviour := "Demonstrates self awareness and a commitment to personal development", description := "Self-evaluates performance and seeks feedback from others. Communicates areas of strengths and acknowledges development needs. Reflects on own behaviour and recognises the impact on others. Shows commitment to learning and self-development." },
  { id := g 17, capability_name := "Communicates with Influence", aps_level := "APS6", behaviour := "Communicates clearly", description := "Confidently presents messages in a clear, concise and articulate manner. Focuses on key points and uses appropriate, unambiguous language. Selects the most appropriate medium for conveying information and structures written and oral communication to ensure clarity." },
  { id := g 18, capability_name := "Communicates with Influence", aps_level := "APS6", behaviour := "Listens, understands and adapts to audience", description := "Seeks to understand the audience and tailors communication style and message accordingly. Listens carefully to others and checks to ensure their views have been understood. Checks own understanding of others\x27 comments and does not allow misunderstandings to linger." },
  { id := g 19, capability_name := "Communicates with Influence", aps_level := "APS6", behaviour := "Negotiates confidently", description := "Approaches negotiations with a clear understanding of key issues. Understands the desired outcomes. Anticipates and identifies relevant stakeholders\x27 expectations and concerns. Discusses issues credibly and thoughtfully and presents persuasive counter-arguments. Encourages the support of relevant stakeholders." }]

/-- `seed_data`: counts the documents of `ils_reference`; inserts the 20
`ILS_DATA` documents only when the count is 0, otherwise changes nothing. -/
def seed_data (g : Nat → String) (ils : List ILSDoc) : List ILSDoc :=
  if 0 < ils.length then ils else ils ++ ILS_DATA g

/-! ## The whole store, and one step of the API -/

/-- The three MongoDB collections the service touches. -/
structure AppState where
  work_examples : List StoredWorkExample
  saved_assessments : List SavedAssessmentDoc
  ils_reference : List ILSDoc

/-- One inbound API request, with the effectful inputs (fresh uuid, current
time, credential, provider response) supplied as constructor arguments. -/
inductive ApiOp where
  | createExample (p : WorkExampleCreate) (freshId : String) (now : PyDateTime)
  | listExamples (q : WorkExampleQuery)
  | getExample (i : String)
  | updateExample (i : String) (p : WorkExampleCreate)
  | deleteExample (i : String)
  | assess (api_key : Option String) (req : AssessmentRequest) (llmText : String)
  | saveAssessment (d : SavedAssessmentDoc)
  | listSaved
  | listReference (aps_level capability : Option String)
  | filterOptions
  | root

/-- The store mutation of one API request (responses are computed by the
corresponding endpoint functions; only the state change matters here). -/
def apiStep (op : ApiOp) (s : AppState) : AppState :=
  match op with
  | .createExample p fid now =>
    { s with work_examples := (create_work_example p fid now s.work_examples).1 }
  | .listExamples _ => s
  | .getExample _ => s
  | .updateExample i p =>
    { s with work_examples := (update_work_example i p s.work_examples).1 }
  | .deleteExample i =>
    { s with work_examples := (delete_work_example i s.work_examples).1 }
  | .assess _ _ _ => s
  | .saveAssessment d =>
    { s with saved_assessments := (save_assessment d s.saved_assessments).1 }
  | .listSaved => s
  | .listReference _ _ => s
  | .filterOptions => s
  | .root => s

/-! ## Helper lemmas -/

theorem find?_append_of_no_match {α : Type} (p : α → Bool) (pre l : List α)
    (h : ∀ x ∈ pre, p x = false) : (pre ++ l).find? p = l.find? p := by
  rw [List.find?_append]
  have : pre.find? p = none := List.find?_eq_none.mpr (by intro x hx; simp [h x hx])
  rw [this, Option.none_or]

theorem update_first_append (i : String) (p : WorkExampleCreate)
    (pre : List StoredWorkExample) (d : StoredWorkExample) (post : List StoredWorkExample)
    (hpre : ∀ x ∈ pre, x.id ≠ i) (hd : d.id = i) :
    update_first i p (pre ++ d :: post) = pre ++ set_fields p d :: post := by
  induction pre with
  | nil => simp [update_first, hd]
  | cons a pre ih =>
    have ha : a.id ≠ i := hpre a (by simp)
    simp only [List.cons_append, update_first, if_neg ha, List.append_eq]
    rw [ih (fun x hx => hpre x (by simp [hx]))]

/-- A list of documents all carrying one fixed `date_created` is sorted for
the descending date order. -/
theorem sorted_dateDesc_of_const (l : List StoredWorkExample) (v : String)
    (h : ∀ x ∈ l, x.date_created = v) : List.Sorted dateDesc l := by
  induction l with
  | nil => exact List.sorted_nil
  | cons a l ih =>
    refine List.sorted_cons.mpr ⟨?_, ih (fun x hx => h x (by simp [hx]))⟩
    intro b hb
    show charsLe _ _ = true
    rw [h a (by simp), h b (by simp [hb])]
    rcases charsLe_total v.data v.data with hv | hv <;> exact hv

theorem flatten_replicate_nil {α : Type} : ∀ n, (List.replicate n ([] : List α)).flatten = [] := by
  intro n
  induction n with
  | zero => rfl
  | succ n ih => simp [List.replicate_succ, ih]

/-- Membership in `sortedDedup` is membership in the scanned list. -/
theorem mem_sortedDedup (x : String) (l : List String) : x ∈ sortedDedup l ↔ x ∈ l := by
  rw [sortedDedup, List.mem_dedup, List.mem_insertionSort]

/-- `sortedDedup` output is sorted for the lexicographic order. -/
theorem sorted_sortedDedup (l : List String) : List.Sorted strLe (sortedDedup l) :=
  List.Pairwise.sublist (List.dedup_sublist _) (List.sorted_insertionSort strLe l)

/-- `sortedDedup` output has no duplicates. -/
theorem nodup_sortedDedup (l : List String) : (sortedDedup l).Nodup :=
  List.nodup_dedup _

/-- The characterization of the built MongoDB query, for truthy-or-absent
filter values (each supplied filter a nonempty string) and no search. -/
theorem matchesWorkExampleQuery_iff (aps capability behaviour tag : Option String)
    (d : StoredWorkExample)
    (haps : aps ≠ some "") (hcap : capability ≠ some "") (hbeh : behaviour ≠ some "")
    (htag : tag ≠ some "") :
    matchesWorkExampleQuery
        { aps_level := aps, capability := capability, behaviour := behaviour, tag := tag,
          search := none } d = true ↔
      (∀ v, aps = some v → d.aps_level = some v) ∧
      (∀ v, capability = some v → v ∈ d.capabilities) ∧
      (∀ v, behaviour = some v → v ∈ d.behaviours) ∧
      (∀ v, tag = some v → v ∈ d.tags) := by
  simp only [matchesWorkExampleQuery, Bool.and_eq_true]
  constructor
  · rintro ⟨⟨⟨⟨h1, h2⟩, h3⟩, h4⟩, -⟩
    refine ⟨?_, ?_, ?_, ?_⟩
    · rintro v rfl
      have : truthy (some v) = true := by
        cases hv : (v == "") with
        | true => exact absurd (by simpa using hv) (by simpa using haps)
        | false => simp [truthy, hv]
      rw [if_pos this] at h1
      simpa using h1
    · rintro v rfl
      have : truthy (some v) = true := by
        cases hv : (v == "") with
        | true => exact absurd (by simpa using hv) (by simpa using hcap)
        | false => simp [truthy, hv]
      rw [if_pos this] at h2
      simpa using h2
    · rintro v rfl
      have : truthy (some v) = true := by
        cases hv : (v == "") with
        | true => exact absurd (by simpa using hv) (by simpa using hbeh)
        | false => simp [truthy, hv]
      rw [if_pos this] at h3
      simpa using h3
    · rintro v rfl
      have : truthy (some v) = true := by
        cases hv : (v == "") with
        | true => exact absurd (by simpa using hv) (by simpa using htag)
        | false => simp [truthy, hv]
      rw [if_pos this] at h4
      simpa using h4
  · rintro ⟨h1, h2, h3, h4⟩
    refine ⟨⟨⟨⟨?_, ?_⟩, ?_⟩, ?_⟩, by simp [truthy]⟩
    · cases aps with
      | none => simp [truthy]
      | some v =>
        split_ifs with h
        · simpa using h1 v rfl
        · rfl
    · cases capability with
      | none => simp [truthy]
      | some v =>
        split_ifs with h
        · simpa using h2 v rfl
        · rfl
    · cases behaviour with
      | none => simp [truthy]
      | some v =>
        split_ifs with h
        · simpa using h3 v rfl
        · rfl
    · cases tag with
      | none => simp [truthy]
      | some v =>
        split_ifs with h
        · simpa using h4 v rfl
        · rfl

/-! ## Concrete sample data for witnesses and counterexamples -/

def exDoc1 : StoredWorkExample :=
  { id := "id-1", title := "Stakeholder briefing", example_text := "Led a cross-agency briefing",
    role := "Policy Officer", aps_level := some "APS6",
    capabilities := ["Achieves Results"], behaviours := ["Communicates clearly"],
    tags := ["communication"], date_created := "2024-01-02T03:04:05+00:00" }

def exPayload : WorkExampleCreate :=
  { title := "New title", example_text := "New text", role := "New role", aps_level := "EL1",
    capabilities := ["Supports Strategic Direction"], behaviours := ["Thinks strategically"],
    tags := ["strategy"] }

/-! ## Claim theorems -/

/-- C1 (amended): for the work-example list operation with `aps_level`,
`capability`, `behaviour`, `tag` filters (each supplied value a nonempty
string) and no search, when at most 1000 documents match the combined
query, a stored work example is returned iff its `aps_level` equals the
supplied `aps_level` (when supplied) and each supplied
`capability`/`behaviour`/`tag` value is a member of the corresponding array
field; the returned sequence is ordered by `date_created` descending. -/
theorem workExample_list_conjunctive_filters (aps capability behaviour tag : Option String)
    (s : List StoredWorkExample)
    (haps : aps ≠ some "") (hcap : capability ≠ some "") (hbeh : behaviour ≠ some "")
    (htag : tag ≠ some "")
    (hcount : s.countP (matchesWorkExampleQuery
      { aps_level := aps, capability := capability, behaviour := behaviour, tag := tag,
        search := none }) ≤ 1000) :
    (∀ d, d ∈ get_work_examples
        { aps_level := aps, capability := capability, behaviour := behaviour, tag := tag,
          search := none } s ↔
      d ∈ s ∧ (∀ v, aps = some v → d.aps_level = some v) ∧
        (∀ v, capability = some v → v ∈ d.capabilities) ∧
        (∀ v, behaviour = some v → v ∈ d.behaviours) ∧
        (∀ v, tag = some v → v ∈ d.tags)) ∧
    List.Sorted dateDesc (get_work_examples
      { aps_level := aps, capability := capability, behaviour := behaviour, tag := tag,
        search := none } s) := by
  have hlen : ((s.filter (matchesWorkExampleQuery
      { aps_level := aps, capability := capability, behaviour := behaviour, tag := tag,
        search := none })).insertionSort dateDesc).length ≤ 1000 := by
    rw [List.length_insertionSort, ← List.countP_eq_length_filter]
    exact hcount
  constructor
  · intro d
    rw [get_work_examples, List.take_of_length_le hlen, List.mem_insertionSort, List.mem_filter,
      matchesWorkExampleQuery_iff aps capability behaviour tag d haps hcap hbeh htag]
  · exact List.Pairwise.sublist (List.take_sublist _ _) (List.sorted_insertionSort _ _)

/-- Witness for C1's theorem at a concrete store and filter set. -/
theorem workExample_list_conjunctive_filters_witness :
    ((some "APS6" : Option String) ≠ some "" ∧ (none : Option String) ≠ some "" ∧
      [exDoc1].countP (matchesWorkExampleQuery
        { aps_level := some "APS6", capability := none, behaviour := none, tag := none,
          search := none }) ≤ 1000) ∧
    (exDoc1 ∈ get_work_examples
      { aps_level := some "APS6", capability := none, behaviour := none, tag := none,
        search := none } [exDoc1] ↔
      exDoc1 ∈ [exDoc1] ∧ (∀ v, (some "APS6" : Option String) = some v → exDoc1.aps_level = some v) ∧
        (∀ v, (none : Option String) = some v → v ∈ exDoc1.capabilities) ∧
        (∀ v, (none : Option String) = some v → v ∈ exDoc1.behaviours) ∧
        (∀ v, (none : Option String) = some v → v ∈ exDoc1.tags)) :=
  ⟨⟨by decide, by decide, by decide⟩,
    (workExample_list_conjunctive_filters (some "APS6") none none none [exDoc1]
      (by decide) (by decide) (by decide) (by decide) (by decide)).1 exDoc1⟩

/-- C1 counterexample: the claim as stated fails when a filter is supplied
as the empty string.  With `aps_level=""` supplied, the handler's truthiness
guard drops the clause entirely, so a document whose `aps_level` is
`"APS6"` (not `""`) is still returned, contradicting the claimed "returned
iff its `aps_level` equals the given `aps_level` (when supplied)". -/
theorem workExample_list_empty_filter_counterexample :
    exDoc1 ∈ get_work_examples { aps_level := some "" } [exDoc1] ∧
      exDoc1.aps_level ≠ some "" := by
  constructor
  · decide
  · decide

/-- C2: updating an existing id patches exactly the seven payload fields of
the stored document — `id` and `date_created` are unchanged, every other
field equals the payload — and updating a missing id returns NotFound and
leaves the store unchanged. -/
theorem workExample_update_frame :
    (∀ i p s, (∀ d ∈ s, d.id ≠ i) →
      update_work_example i p s = (s, .error notFoundStatus)) ∧
    (∀ i p pre d post, (∀ x ∈ pre, x.id ≠ i) → d.id = i →
      update_work_example i p (pre ++ d :: post) =
        (pre ++ set_fields p d :: post, .ok (toResp (set_fields p d))) ∧
      (set_fields p d).id = d.id ∧
      (set_fields p d).date_created = d.date_created ∧
      (set_fields p d).title = p.title ∧
      (set_fields p d).example_text = p.example_text ∧
      (set_fields p d).role = p.role ∧
      (set_fields p d).aps_level = some p.aps_level ∧
      (set_fields p d).capabilities = p.capabilities ∧
      (set_fields p d).behaviours = p.behaviours ∧
      (set_fields p d).tags = p.tags) := by
  constructor
  · intro i p s hall
    have hnone : find_one i s = none :=
      List.find?_eq_none.mpr (by intro x hx; simpa using hall x hx)
    rw [update_work_example, hnone]
  · intro i p pre d post hpre hd
    have hprefalse : ∀ x ∈ pre, (x.id == i) = false := by
      intro x hx; simpa using hpre x hx
    have hfind : find_one i (pre ++ d :: post) = some d := by
      rw [find_one, find?_append_of_no_match _ pre _ hprefalse,
        List.find?_cons_of_pos _ (by simpa using hd)]
    have hupd : update_first i p (pre ++ d :: post) = pre ++ set_fields p d :: post :=
      update_first_append i p pre d post hpre hd
    have hfind2 : find_one i (pre ++ set_fields p d :: post) = some (set_fields p d) := by
      rw [find_one, find?_append_of_no_match _ pre _ hprefalse,
        List.find?_cons_of_pos _ (by simpa [set_fields] using hd)]
    refine ⟨?_, rfl, rfl, rfl, rfl, rfl, rfl, rfl, rfl, rfl⟩
    rw [update_work_example, hfind]
    simp only [hupd, hfind2]

/-- Witness for C2's theorem: a one-document store, hitting both the
existing-id and the missing-id branches. -/
theorem workExample_update_frame_witness :
    ((∀ d ∈ [exDoc1], d.id ≠ "other-id") ∧ (∀ x ∈ ([] : List StoredWorkExample), x.id ≠ "id-1") ∧
      exDoc1.id = "id-1") ∧
    update_work_example "other-id" exPayload [exDoc1] = ([exDoc1], .error notFoundStatus) ∧
    update_work_example "id-1" exPayload ([] ++ exDoc1 :: []) =
      ([] ++ set_fields exPayload exDoc1 :: [], .ok (toResp (set_fields exPayload exDoc1))) := by
  refine ⟨⟨by decide, by decide, by decide⟩, ?_, ?_⟩
  · exact workExample_update_frame.1 "other-id" exPayload [exDoc1] (by decide)
  · exact (workExample_update_frame.2 "id-1" exPayload [] exDoc1 [] (by decide) (by decide)).1

/-- C7: get, update and delete return 404 exactly when no stored document
has the requested id; a successful delete removes exactly the matching
document, after which a get of the same id is 404 and a list no longer
contains it; and 404 is a dedicated code distinct from the generic 500. -/
theorem workExample_notFound_semantics :
    (∀ i s, get_work_example i s = .error notFoundStatus ↔ ∀ d ∈ s, d.id ≠ i) ∧
    (∀ i p s, (update_work_example i p s).2 = .error notFoundStatus ↔ ∀ d ∈ s, d.id ≠ i) ∧
    (∀ i s, (delete_work_example i s).2 = .error notFoundStatus ↔ ∀ d ∈ s, d.id ≠ i) ∧
    (∀ i s, (∀ d ∈ s, d.id ≠ i) → (delete_work_example i s).1 = s) ∧
    (∀ i pre d post, d.id = i → (∀ x ∈ pre, x.id ≠ i) → (∀ x ∈ post, x.id ≠ i) →
      (delete_work_example i (pre ++ d :: post)).1 = pre ++ post ∧
      get_work_example i (pre ++ post) = .error notFoundStatus ∧
      (∀ q, d ∉ get_work_examples q (pre ++ post))) ∧
    notFoundStatus = 404 ∧ internalErrorStatus = 500 ∧ notFoundStatus ≠ internalErrorStatus := by
  have hnone : ∀ i (s : List StoredWorkExample),
      find_one i s = none ↔ ∀ d ∈ s, d.id ≠ i := by
    intro i s
    rw [find_one, List.find?_eq_none]
    constructor
    · intro h d hd
      simpa using h d hd
    · intro h d hd
      simpa using h d hd
  have hget : ∀ i (s : List StoredWorkExample),
      get_work_example i s = .error notFoundStatus ↔ ∀ d ∈ s, d.id ≠ i := by
    intro i s
    cases hf : find_one i s with
    | none =>
      simp only [get_work_example, hf]
      exact iff_of_true trivial ((hnone i s).mp hf)
    | some d =>
      simp only [get_work_example, hf]
      refine iff_of_false (by intro h; cases h) ?_
      intro hall
      exact hall d (List.mem_of_find?_eq_some hf) (by simpa using List.find?_some hf)
  refine ⟨hget, ?_, ?_, ?_, ?_, rfl, rfl, by decide⟩
  · intro i p s
    cases hf : find_one i s with
    | none =>
      simp only [update_work_example, hf]
      exact iff_of_true trivial ((hnone i s).mp hf)
    | some d =>
      have hmem : d ∈ s := List.mem_of_find?_eq_some hf
      have hdi : d.id = i := by simpa using List.find?_some hf
      refine iff_of_false ?_ (fun hall => hall d hmem hdi)
      simp only [update_work_example, hf]
      cases hf2 : find_one i (update_first i p s) with
      | none => simp [notFoundStatus, internalErrorStatus]
      | some e => simp
  · intro i s
    by_cases h : s.any (fun d => d.id == i)
    · rw [delete_work_example, if_pos h]
      obtain ⟨x, hx, hxi⟩ := List.any_eq_true.mp h
      exact iff_of_false (by intro he; cases he) (fun hall => hall x hx (by simpa using hxi))
    · rw [delete_work_example, if_neg h]
      refine iff_of_true rfl ?_
      intro d hd hdi
      exact h (List.any_eq_true.mpr ⟨d, hd, by simpa using hdi⟩)
  · intro i s hall
    have h : s.any (fun d => d.id == i) = false := by
      rw [Bool.eq_false_iff]
      intro hc
      obtain ⟨x, hx, hxi⟩ := List.any_eq_true.mp hc
      exact hall x hx (by simpa using hxi)
    rw [delete_work_example, if_neg (by simp [h])]
  · intro i pre d post hd hpre hpost
    have hany : (pre ++ d :: post).any (fun x => x.id == i) = true :=
      List.any_eq_true.mpr ⟨d, by simp, by simpa using hd⟩
    have herase : (pre ++ d :: post).eraseP (fun x => x.id == i) = pre ++ post := by
      rw [List.eraseP_append_right _ (by intro b hb; simpa using hpre b hb),
        List.eraseP_cons_of_pos (by simpa using hd)]
    have hall : ∀ x ∈ pre ++ post, x.id ≠ i := by
      intro x hx
      rcases List.mem_append.mp hx with h | h
      · exact hpre x h
      · exact hpost x h
    refine ⟨?_, (hget i (pre ++ post)).mpr hall, ?_⟩
    · rw [delete_work_example, if_pos hany, herase]
    · intro q hmemq
      have hmem2 : d ∈ pre ++ post := by
        have h1 := List.take_subset 1000 _ hmemq
        have h2 := List.mem_insertionSort dateDesc |>.mp h1
        exact (List.mem_filter.mp h2).1
      exact hall d hmem2 hd

/-- Witness for C7's theorem: one-document store, hitting the found and
not-found branches of get and delete. -/
theorem workExample_notFound_semantics_witness :
    ((∀ d ∈ [exDoc1], d.id ≠ "missing") ∧ exDoc1.id = "id-1" ∧
      (∀ x ∈ ([] : List StoredWorkExample), x.id ≠ "id-1")) ∧
    (get_work_example "missing" [exDoc1] = .error notFoundStatus ↔
      ∀ d ∈ [exDoc1], d.id ≠ "missing") ∧
    (delete_work_example "id-1" ([] ++ exDoc1 :: [])).1 = [] ++ [] ∧
    get_work_example "id-1" ([] ++ ([] : List StoredWorkExample)) = .error notFoundStatus := by
  have h := workExample_notFound_semantics
  have hdel := h.2.2.2.2.1 "id-1" [] exDoc1 [] (by decide) (by decide) (by decide)
  exact ⟨⟨by decide, by decide, by decide⟩, h.1 "missing" [exDoc1], hdel.1, hdel.2.1⟩

/-- Uppercase code points shifted down never produce `.` (code 46). -/
theorem ofNat_shift_ne_dot : ∀ n, n < 91 → 65 ≤ n → Char.ofNat (n + 32) ≠ '.' := by decide

theorem lowerChar_ne_dot (c : Char) (h : c ≠ '.') : lowerChar c ≠ '.' := by
  unfold lowerChar
  split_ifs with hc
  · exact ofNat_shift_ne_dot c.toNat (by omega) hc.1
  · exact h

/-- Following the spec's words ("`search` matches if `title` OR
`example_text` contains the search string case-insensitively"):
case-insensitive substring containment on either text field. -/
def specSearchMatches (needle : String) (d : StoredWorkExample) : Prop :=
  lowerChars needle.data <:+: lowerChars d.title.data ∨
    lowerChars needle.data <:+: lowerChars d.example_text.data

instance (needle : String) (d : StoredWorkExample) : Decidable (specSearchMatches needle d) := by
  unfold specSearchMatches
  infer_instance

/-- On metacharacter-free search strings the regex engine degenerates to
substring search. -/
theorem regexFindCI_eq_substring (needle t : String) (hmeta : NoMetachar needle) :
    regexFindCI needle t = true ↔ lowerChars needle.data <:+: lowerChars t.data := by
  apply regexFind_eq_isInfixOf
  intro c hc
  obtain ⟨c0, hc0, rfl⟩ := List.mem_map.mp hc
  refine lowerChar_ne_dot c0 (fun he => ?_)
  exact hmeta c0 hc0 (by rw [he]; decide)

/-- The query built for a search-only list call, characterized. -/
theorem matchesQuery_search_iff (needle : String) (d : StoredWorkExample)
    (hmeta : NoMetachar needle) :
    matchesWorkExampleQuery { search := some needle } d = true ↔ specSearchMatches needle d := by
  by_cases hn : needle = ""
  · subst hn
    simp only [matchesWorkExampleQuery, truthy, specSearchMatches]
    norm_num
    exact Or.inl (by simp [lowerChars])
  · have hb : (needle == "") = false := by simp [hn]
    simp [matchesWorkExampleQuery, truthy, hb, specSearchMatches,
      regexFindCI_eq_substring needle d.title hmeta,
      regexFindCI_eq_substring needle d.example_text hmeta]

/-- C5 (amended): the code applies `search` as a case-insensitive regular
expression; for search strings free of regex metacharacters (and at most
1000 matches) this agrees with the claimed case-insensitive substring test
on `title` or `example_text`. -/
theorem workExample_search_substring (needle : String) (s : List StoredWorkExample)
    (hmeta : NoMetachar needle)
    (hcount : s.countP (matchesWorkExampleQuery { search := some needle }) ≤ 1000) :
    ∀ d, d ∈ get_work_examples { search := some needle } s ↔
      d ∈ s ∧ specSearchMatches needle d := by
  have hlen : ((s.filter (matchesWorkExampleQuery { search := some needle })).insertionSort
      dateDesc).length ≤ 1000 := by
    rw [List.length_insertionSort, ← List.countP_eq_length_filter]
    exact hcount
  intro d
  rw [get_work_examples, List.take_of_length_le hlen, List.mem_insertionSort, List.mem_filter,
    matchesQuery_search_iff needle d hmeta]

/-- Witness for C5's theorem at a concrete store and search string. -/
theorem workExample_search_substring_witness :
    (NoMetachar "briefing" ∧
      [exDoc1].countP (matchesWorkExampleQuery { search := some "briefing" }) ≤ 1000) ∧
    (exDoc1 ∈ get_work_examples { search := some "briefing" } [exDoc1] ↔
      exDoc1 ∈ [exDoc1] ∧ specSearchMatches "briefing" exDoc1) :=
  ⟨⟨by decide, by decide⟩,
    workExample_search_substring "briefing" [exDoc1] (by decide) (by decide) exDoc1⟩

def exDoc2 : StoredWorkExample :=
  { id := "id-2", title := "abc", example_text := "zzz", role := "",
    aps_level := some "APS6", capabilities := [], behaviours := [], tags := [],
    date_created := "" }

/-- C5 counterexample: with the search string `a.c` (a regex metacharacter
`.`), a document titled `abc` is returned although `a.c` is not a substring
of either text field — the claim's "contains the search string
case-insensitively ... for every search string" is false on the code. -/
theorem workExample_search_regex_counterexample :
    exDoc2 ∈ get_work_examples { search := some "a.c" } [exDoc2] ∧
      ¬ specSearchMatches "a.c" exDoc2 := ⟨by decide, by decide⟩

/-- C6 (amended): over a store of at most 1000 work examples (the scan is
capped at 1000 documents), `filter_options` returns, for each list field,
the lexicographically sorted de-duplicated union of that field over the
scanned documents, and for `aps_levels` the sorted de-duplicated set of
`aps_level` values, a missing field contributing the empty string (which is
kept, not filtered out). -/
theorem filterOptions_sorted_dedup_union (s : List StoredWorkExample)
    (hlen : s.length ≤ 1000) :
    (get_filter_options s).capabilities = sortedDedup (s.flatMap (·.capabilities)) ∧
    (get_filter_options s).behaviours = sortedDedup (s.flatMap (·.behaviours)) ∧
    (get_filter_options s).tags = sortedDedup (s.flatMap (·.tags)) ∧
    (get_filter_options s).aps_levels = sortedDedup (s.map (fun d => d.aps_level.getD "")) ∧
    (∀ x, x ∈ (get_filter_options s).capabilities ↔ ∃ d ∈ s, x ∈ d.capabilities) ∧
    (∀ x, x ∈ (get_filter_options s).behaviours ↔ ∃ d ∈ s, x ∈ d.behaviours) ∧
    (∀ x, x ∈ (get_filter_options s).tags ↔ ∃ d ∈ s, x ∈ d.tags) ∧
    (∀ x, x ∈ (get_filter_options s).aps_levels ↔ ∃ d ∈ s, d.aps_level.getD "" = x) ∧
    List.Sorted strLe (get_filter_options s).capabilities ∧
    List.Sorted strLe (get_filter_options s).behaviours ∧
    List.Sorted strLe (get_filter_options s).tags ∧
    List.Sorted strLe (get_filter_options s).aps_levels ∧
    (get_filter_options s).capabilities.Nodup ∧
    (get_filter_options s).behaviours.Nodup ∧
    (get_filter_options s).tags.Nodup ∧
    (get_filter_options s).aps_levels.Nodup := by
  have htake : s.take 1000 = s := List.take_of_length_le hlen
  have hc : (get_filter_options s).capabilities = sortedDedup (s.flatMap (·.capabilities)) := by
    simp [get_filter_options, htake]
  have hb : (get_filter_options s).behaviours = sortedDedup (s.flatMap (·.behaviours)) := by
    simp [get_filter_options, htake]
  have htg : (get_filter_options s).tags = sortedDedup (s.flatMap (·.tags)) := by
    simp [get_filter_options, htake]
  have ha : (get_filter_options s).aps_levels =
      sortedDedup (s.map (fun d => d.aps_level.getD "")) := by
    simp [get_filter_options, htake]
  refine ⟨hc, hb, htg, ha, ?_, ?_, ?_, ?_, ?_, ?_, ?_, ?_, ?_, ?_, ?_, ?_⟩
  · intro x; rw [hc, mem_sortedDedup, List.mem_flatMap]
  · intro x; rw [hb, mem_sortedDedup, List.mem_flatMap]
  · intro x; rw [htg, mem_sortedDedup, List.mem_flatMap]
  · intro x
    rw [ha, mem_sortedDedup, List.mem_map]
  · rw [hc]; exact sorted_sortedDedup _
  · rw [hb]; exact sorted_sortedDedup _
  · rw [htg]; exact sorted_sortedDedup _
  · rw [ha]; exact sorted_sortedDedup _
  · rw [hc]; exact nodup_sortedDedup _
  · rw [hb]; exact nodup_sortedDedup _
  · rw [htg]; exact nodup_sortedDedup _
  · rw [ha]; exact nodup_sortedDedup _

/-- Witness for C6's theorem at a concrete two-document store. -/
theorem filterOptions_sorted_dedup_union_witness :
    ([exDoc1, exDoc2].length ≤ 1000) ∧
    (get_filter_options [exDoc1, exDoc2]).tags =
      sortedDedup ([exDoc1, exDoc2].flatMap (·.tags)) ∧
    (∀ x, x ∈ (get_filter_options [exDoc1, exDoc2]).tags ↔
      ∃ d ∈ [exDoc1, exDoc2], x ∈ d.tags) :=
  ⟨by decide,
    (filterOptions_sorted_dedup_union [exDoc1, exDoc2] (by decide)).2.2.1,
    (filterOptions_sorted_dedup_union [exDoc1, exDoc2] (by decide)).2.2.2.2.2.2.1⟩

/-- A document with no list entries and an `APS6` level. -/
def blankDoc : StoredWorkExample :=
  { id := "", title := "", example_text := "", role := "", aps_level := some "APS6",
    capabilities := [], behaviours := [], tags := [], date_created := "" }

/-- The 1001st document, carrying the tag `z` missed by the capped scan. -/
def zDoc : StoredWorkExample := { blankDoc with id := "z", tags := ["z"] }

/-- 1001 stored documents: the cap leaves the last one unscanned. -/
def bigDocStore : List StoredWorkExample := List.replicate 1000 blankDoc ++ [zDoc]

/-- C6 counterexample: with 1001 stored documents, the tag `z` of the
1001st is in the union over all stored documents but absent from the
`filter_options` result, because the scan reads only the first 1000. -/
theorem get_filter_options_tags_eq (s : List StoredWorkExample) :
    (get_filter_options s).tags = sortedDedup ((s.take 1000).flatMap (·.tags)) := rfl

theorem filterOptions_cap_counterexample :
    "z" ∈ sortedDedup (bigDocStore.flatMap (·.tags)) ∧
      "z" ∉ (get_filter_options bigDocStore).tags := by
  have htake : bigDocStore.take 1000 = List.replicate 1000 blankDoc := by
    rw [bigDocStore, List.take_left' (List.length_replicate _ _)]
  have hflat : (List.replicate 1000 blankDoc).flatMap (·.tags) = [] := by
    rw [List.flatMap_replicate]
    exact flatten_replicate_nil 1000
  constructor
  · rw [mem_sortedDedup, List.mem_flatMap]
    refine ⟨zDoc, ?_, by decide⟩
    rw [bigDocStore]
    exact List.mem_append_right _ (by simp)
  · rw [get_filter_options_tags_eq, htake, hflat]
    decide

/-- C3 (amended): for an assess request at level `L` with a configured
credential, when at most 100 reference items match, the fetched items are
exactly the stored items with `aps_level = L`, the context block renders
them one per line in store-returned order, the full prompt (containing the
block) is rendered and recorded before the LLM call; an omitted `aps_level`
field defaults to `"APS6"`; and on the 20-item seeded catalog the APS6
block has exactly the 20 lines. -/
theorem assess_context_block (key : Option String) (tex L : String)
    (ils : List ILSDoc) (llm : String → String)
    (hkey : truthy key = true)
    (hcount : ils.countP (ilsQueryMatches (some L)) ≤ 100) :
    assess_example key { example_text := tex, aps_level := some L } ils llm =
      ([.storeRead "ils_reference" (assessIlsItems (some L) ils).length,
        .llmCall (assessmentPrompt { example_text := tex, aps_level := some L } ils)],
       .ok { assessment := llm (assessmentPrompt { example_text := tex, aps_level := some L } ils),
             example_text := tex }) ∧
    assessIlsItems (some L) ils = ils.filter (fun d => d.aps_level == L) ∧
    contextLinesFor (some L) ils = (ils.filter (fun d => d.aps_level == L)).map renderRefLine ∧
    (∃ pre post,
      assessmentPrompt { example_text := tex, aps_level := some L } ils =
        pre ++ ilsContext (some L) ils ++ post) ∧
    ilsContext (some L) ils =
      "\n\n### APS ILS Framework Reference:\n" ++
        String.join ((contextLinesFor (some L) ils).map (fun l => l ++ "\n")) ∧
    (∀ t, (parseAssessmentRequest t none).aps_level = some "APS6") ∧
    (∀ g, contextLinesFor (some "APS6") (ILS_DATA g) = (ILS_DATA g).map renderRefLine ∧
      (contextLinesFor (some "APS6") (ILS_DATA g)).length = 20) := by
  have hfl : assessIlsItems (some L) ils = ils.filter (fun d => d.aps_level == L) := by
    rw [assessIlsItems]
    exact List.take_of_length_le (by rw [← List.countP_eq_length_filter]; exact hcount)
  refine ⟨?_, hfl, by rw [contextLinesFor, hfl], ?_, rfl, fun t => rfl, ?_⟩
  · rw [assess_example, if_pos hkey]
  · refine ⟨"Please assess this work example against the APS ILS framework for " ++ L ++
      " level.\n\n", "\n\n### Work Example to Assess:\n" ++ tex ++
      "\n\nProvide a comprehensive assessment following the structured format outlined in your system instructions.", ?_⟩
    rw [assessmentPrompt]
    simp [String.append_assoc, pyStr]
  · intro g
    have hfilter : (ILS_DATA g).filter (fun d => d.aps_level == "APS6") = ILS_DATA g :=
      List.filter_eq_self.mpr (fun a _ => by
        revert a
        rw [ILS_DATA]
        intro a ha
        simp only [List.mem_cons, List.not_mem_nil, or_false] at ha
        rcases ha with h | h | h | h | h | h | h | h | h | h | h | h | h | h | h | h | h | h |
          h | h <;> (subst h; rfl))
    have hitems : assessIlsItems (some "APS6") (ILS_DATA g) = ILS_DATA g := by
      rw [assessIlsItems]
      show ((ILS_DATA g).filter (fun d => d.aps_level == "APS6")).take 100 = ILS_DATA g
      rw [hfilter]
      exact List.take_of_length_le (by rw [ILS_DATA]; simp)
    constructor
    · rw [contextLinesFor, hitems]
    · rw [contextLinesFor, hitems, List.length_map, ILS_DATA]
      rfl

/-- Witness for C3's theorem: the seeded catalog itself (with a dummy id
generator), a configured key, and the default APS6 level. -/
theorem assess_context_block_witness :
    (truthy (some "sk-key") = true ∧
      (ILS_DATA (fun _ => "r")).countP (ilsQueryMatches (some "APS6")) ≤ 100) ∧
    (∀ g, contextLinesFor (some "APS6") (ILS_DATA g) = (ILS_DATA g).map renderRefLine ∧
      (contextLinesFor (some "APS6") (ILS_DATA g)).length = 20) ∧
    assessIlsItems (some "APS6") (ILS_DATA (fun _ => "r")) =
      (ILS_DATA (fun _ => "r")).filter (fun d => d.aps_level == "APS6") := by
  have h := assess_context_block (some "sk-key") "my example" "APS6"
    (ILS_DATA (fun _ => "r")) (fun p => p) (by decide) (by decide)
  exact ⟨⟨by decide, by decide⟩, h.2.2.2.2.2.2, h.2.1⟩

/-- A minimal APS6 reference item. -/
def blankRef : ILSDoc :=
  { id := "", capability_name := "C", aps_level := "APS6", behaviour := "B",
    description := "D0" }

/-- The 101st APS6 reference item, distinguishable by its description. -/
def specialRef : ILSDoc := { blankRef with description := "D1" }

/-- 101 stored APS6 reference items: the context fetch reads only 100. -/
def bigRefStore : List ILSDoc := List.replicate 100 blankRef ++ [specialRef]

theorem bigRefStore_filter_eq :
    bigRefStore.filter (ilsQueryMatches (some "APS6")) = bigRefStore :=
  List.filter_eq_self.mpr (fun a ha => by
    rcases List.mem_append.mp ha with h | h
    · rw [List.eq_of_mem_replicate h]; rfl
    · simp only [List.mem_singleton] at h; rw [h]; rfl)

theorem bigRefStore_take_eq : bigRefStore.take 100 = List.replicate 100 blankRef := by
  rw [bigRefStore, List.take_left' (List.length_replicate _ _)]

/-- C3 counterexample: with 101 stored APS6 items, the 101st is matching
and stored, yet its rendered line is absent from the context block — the
fetch is capped at 100 items, so the claimed "every stored ReferenceItem
whose aps_level equals L" is false on the code. -/
theorem assess_context_cap_counterexample :
    specialRef ∈ bigRefStore ∧ specialRef.aps_level = "APS6" ∧
      renderRefLine specialRef ∉ contextLinesFor (some "APS6") bigRefStore := by
  refine ⟨?_, by decide, ?_⟩
  · rw [bigRefStore]
    exact List.mem_append_right _ (by simp)
  · rw [contextLinesFor, assessIlsItems, bigRefStore_filter_eq, bigRefStore_take_eq,
      List.map_replicate]
    intro hmem
    exact (by decide : renderRefLine specialRef ≠ renderRefLine blankRef)
      (List.eq_of_mem_replicate hmem)

/-- C4: with no (or an empty) credential configured, `assess` fails with
the 500 configuration error, issues no LLM call and no store read, and
leaves every collection unchanged — the credential check precedes the
reference fetch and the LLM call. -/
theorem assess_missing_credential (key : Option String) (req : AssessmentRequest)
    (ils : List ILSDoc) (llm : String → String) (hkey : truthy key = false) :
    assess_example key req ils llm = ([], .error internalErrorStatus) ∧
    internalErrorStatus = 500 ∧
    (∀ s llmText, apiStep (.assess key req llmText) s = s) := by
  refine ⟨?_, rfl, fun s llmText => rfl⟩
  rw [assess_example, if_neg (by simp [hkey])]

/-- Witness for C4's theorem: an absent credential on a concrete request. -/
theorem assess_missing_credential_witness :
    truthy none = false ∧
    assess_example none (parseAssessmentRequest "text" none) [blankRef] (fun p => p) =
      ([], .error internalErrorStatus) :=
  ⟨rfl, (assess_missing_credential none (parseAssessmentRequest "text" none) [blankRef]
    (fun p => p) rfl).1⟩

/-- C8: for every timezone-aware timestamp generated at creation,
serializing with `isoformat` and reparsing with `fromisoformat` restores it
exactly; hence a get of a freshly created work example, and a list of a
freshly saved assessment, return the `date_created` assigned at creation. -/
theorem timestamp_roundtrip (t : PyDateTime) (ht : t.Valid) (p : WorkExampleCreate)
    (freshId : String) (s : List StoredWorkExample) (hfresh : ∀ d ∈ s, d.id ≠ freshId) :
    fromisoformat t.isoformat = some t ∧
    get_work_example freshId (create_work_example p freshId t s).1 =
      .ok (toResp (mkWorkExampleDoc p freshId t)) ∧
    (toResp (mkWorkExampleDoc p freshId t)).date_created = some t ∧
    (∀ i eid ex atext,
      (get_saved_assessments
        [{ id := i, example_id := eid, example_text := ex, assessment_text := atext,
           date_created := t.isoformat }]).map (fun r => r.date_created) = [some t]) := by
  have hrt : fromisoformat t.isoformat = some t := fromisoformat_isoformat t ht
  refine ⟨hrt, ?_, ?_, ?_⟩
  · rw [get_work_example, create_work_example, find_one,
      find?_append_of_no_match _ s _ (by intro x hx; simpa using hfresh x hx),
      List.find?_cons_of_pos _ (by simp [mkWorkExampleDoc])]
  · rw [toResp]
    show fromisoformat (mkWorkExampleDoc p freshId t).date_created = some t
    rw [mkWorkExampleDoc]
    exact hrt
  · intro i eid ex atext
    show [(toSavedResp _).date_created] = [some t]
    rw [toSavedResp]
    show [fromisoformat t.isoformat] = [some t]
    rw [hrt]

/-- Witness for C8's theorem at a concrete creation timestamp (with and
without microseconds, exercised through the single valid input 2024-05-06
07:08:09.123456 UTC on an empty store). -/
theorem timestamp_roundtrip_witness :
    (PyDateTime.Valid ⟨2024, 5, 6, 7, 8, 9, 123456⟩ ∧
      (∀ d ∈ ([] : List StoredWorkExample), d.id ≠ "fresh")) ∧
    fromisoformat (PyDateTime.isoformat ⟨2024, 5, 6, 7, 8, 9, 123456⟩) =
      some ⟨2024, 5, 6, 7, 8, 9, 123456⟩ ∧
    get_work_example "fresh"
        (create_work_example exPayload "fresh" ⟨2024, 5, 6, 7, 8, 9, 123456⟩ []).1 =
      .ok (toResp (mkWorkExampleDoc exPayload "fresh" ⟨2024, 5, 6, 7, 8, 9, 123456⟩)) := by
  have h := timestamp_roundtrip ⟨2024, 5, 6, 7, 8, 9, 123456⟩ (by decide) exPayload "fresh" []
    (by decide)
  exact ⟨⟨by decide, by decide⟩, h.1, h.2.1⟩

/-- C9: no API operation (nor any sequence of them) changes the
`ils_reference` collection, and the seeder inserts the 20-item catalog only
into an empty collection, leaving a non-empty one untouched. -/
theorem reference_catalog_immutable :
    (∀ op s, (apiStep op s).ils_reference = s.ils_reference) ∧
    (∀ (ops : List ApiOp) (s : AppState),
      (ops.foldl (fun u op => apiStep op u) s).ils_reference = s.ils_reference) ∧
    (∀ g ils, ils ≠ [] → seed_data g ils = ils) ∧
    (∀ g, seed_data g [] = ILS_DATA g) ∧
    (∀ (ops : List ApiOp) (g : Nat → String) (s : AppState),
      (ops.foldl (fun u op => apiStep op u)
        { s with ils_reference := seed_data g s.ils_reference }).ils_reference =
      seed_data g s.ils_reference) := by
  have hop : ∀ op s, (apiStep op s).ils_reference = s.ils_reference := by
    intro op s
    cases op <;> rfl
  have hfold : ∀ (ops : List ApiOp) (s : AppState),
      (ops.foldl (fun u op => apiStep op u) s).ils_reference = s.ils_reference := by
    intro ops
    induction ops with
    | nil => intro s; rfl
    | cons op ops ih =>
      intro s
      rw [List.foldl_cons, ih, hop]
  refine ⟨hop, hfold, ?_, fun g => rfl, fun ops g s => hfold ops _⟩
  intro g ils hne
  rw [seed_data, if_pos (List.length_pos.mpr hne)]

/-- Witness for C9's theorem: the seeder skips a non-empty collection. -/
theorem reference_catalog_immutable_witness :
    ([blankRef] ≠ ([] : List ILSDoc)) ∧
      seed_data (fun _ => "r") [blankRef] = [blankRef] :=
  ⟨by decide, reference_catalog_immutable.2.2.1 (fun _ => "r") [blankRef] (by decide)⟩

theorem bigDocStore_take_eq : bigDocStore.take 1000 = List.replicate 1000 blankDoc := by
  rw [bigDocStore, List.take_left' (List.length_replicate _ _)]

theorem bigDocStore_sorted : List.Sorted dateDesc bigDocStore := by
  refine sorted_dateDesc_of_const bigDocStore "" ?_
  intro x hx
  rcases List.mem_append.mp hx with h | h
  · rw [List.eq_of_mem_replicate h]; rfl
  · simp only [List.mem_singleton] at h; rw [h]; rfl

/-- C10: every read path is capped — work-example lists, saved-assessment
lists, reference lists at 1000 documents, the filter-options scan at 1000
documents, the assess context fetch at 100 items — and for store states
beyond the cap, stored matching documents are silently omitted. -/
theorem read_path_caps :
    (∀ q s, (get_work_examples q s).length ≤ 1000) ∧
    (∀ s, (get_saved_assessments s).length ≤ 1000) ∧
    (∀ la ca s, (get_ils_reference la ca s).length ≤ 1000) ∧
    (∀ s, get_filter_options s = get_filter_options (s.take 1000)) ∧
    (∀ lvl ils, (assessIlsItems lvl ils).length ≤ 100) ∧
    (zDoc ∈ bigDocStore ∧ zDoc ∉ get_work_examples {} bigDocStore) ∧
    (specialRef ∈ bigRefStore ∧ specialRef.aps_level = "APS6" ∧
      specialRef ∉ assessIlsItems (some "APS6") bigRefStore) := by
  refine ⟨?_, ?_, ?_, ?_, ?_, ⟨?_, ?_⟩, ?_, by decide, ?_⟩
  · intro q s
    rw [get_work_examples]
    exact List.length_take_le _ _
  · intro s
    rw [get_saved_assessments, List.length_map]
    exact List.length_take_le _ _
  · intro la ca s
    rw [get_ils_reference]
    exact List.length_take_le _ _
  · intro s
    simp [get_filter_options, List.take_take]
  · intro lvl ils
    rw [assessIlsItems]
    exact List.length_take_le _ _
  · rw [bigDocStore]
    exact List.mem_append_right _ (by simp)
  · have hfilter : bigDocStore.filter (matchesWorkExampleQuery {}) = bigDocStore :=
      List.filter_eq_self.mpr (fun a _ => rfl)
    rw [get_work_examples, hfilter, List.Sorted.insertionSort_eq bigDocStore_sorted,
      bigDocStore_take_eq]
    intro hmem
    exact (by decide : zDoc ≠ blankDoc) (List.eq_of_mem_replicate hmem)
  · rw [bigRefStore]
    exact List.mem_append_right _ (by simp)
  · rw [assessIlsItems, bigRefStore_filter_eq, bigRefStore_take_eq]
    intro hmem
    exact (by decide : specialRef ≠ blankRef) (List.eq_of_mem_replicate hmem)
